import Mathlib

set_option linter.unusedVariables false

/-!
Shallow embedding of the 4xN matrix library in src/src/matrix.rs.

Modelling conventions:
* `f64` values are modelled as rationals; every operation the claims
  exercise uses only exact arithmetic on the inputs involved.
* A Rust `[f64; 4]` column is the structure `Col` with fields x, y, z, w
  (indices 0..3); runtime indexing into a column is `Col.get` and
  `Col.setIdx`, which return `none` exactly where the Rust array access
  panics (index out of bounds).
* An operation that can panic in Rust (explicit bounds check, or an
  out-of-range `Vec`/array index) is embedded as an `Option`-valued
  function returning `none` at the panic.
* `Vec<[f64; 4]>` is a `List Col`; `Vec` indexing `v[i]` is the checked
  access `l[i]?`.
-/

namespace CStack

structure Col where
  x : ℚ
  y : ℚ
  z : ℚ
  w : ℚ
deriving DecidableEq, Repr

/-- Runtime read `column[i]` of a Rust `[f64; 4]`: `none` is the
out-of-bounds panic. -/
def Col.get (c : Col) (i : Nat) : Option ℚ :=
  match i with
  | 0 => some c.x
  | 1 => some c.y
  | 2 => some c.z
  | 3 => some c.w
  | _ => none

/-- Runtime write `column[i] = val` of a Rust `[f64; 4]`: `none` is the
out-of-bounds panic (no write happens). -/
def Col.setIdx (c : Col) (i : Nat) (val : ℚ) : Option Col :=
  match i with
  | 0 => some ⟨val, c.y, c.z, c.w⟩
  | 1 => some ⟨c.x, val, c.z, c.w⟩
  | 2 => some ⟨c.x, c.y, val, c.w⟩
  | 3 => some ⟨c.x, c.y, c.z, val⟩
  | _ => none

def Col.toList (c : Col) : List ℚ := [c.x, c.y, c.z, c.w]

/-- Componentwise sum of two columns: the body of the loop in
`Add for Matrix` (matrix.rs lines 135-140). -/
def Col.add (a b : Col) : Col := ⟨a.x + b.x, a.y + b.y, a.z + b.z, a.w + b.w⟩

/-- matrix.rs lines 6-9: `pub struct Matrix { v: Vec<[f64; 4]> }`. -/
structure Matrix where
  v : List Col
deriving DecidableEq, Repr

namespace Matrix

/-- matrix.rs `Matrix::new`. -/
def new (columns : List Col) : Matrix := ⟨columns⟩

/-- matrix.rs `Matrix::empty`. -/
def empty : Matrix := new []

/-- matrix.rs `Matrix::origin`. -/
def origin : Matrix := new [⟨0, 0, 0, 1⟩]

/-- matrix.rs lines 29-42, `Matrix::new4x4`.  The second column is
transcribed exactly as the source writes it: `[b, f, j, m]`, so the
parameter `m` appears in both the first and the second column and the
parameter `n` is never stored. -/
def new4x4 (a b c d e f g h i j k l m n o p : ℚ) : Matrix :=
  ⟨[⟨a, e, i, m⟩,
    ⟨b, f, j, m⟩,
    ⟨c, g, k, o⟩,
    ⟨d, h, l, p⟩]⟩

/-- matrix.rs `Matrix::identity`. -/
def identity : Matrix :=
  new [⟨1, 0, 0, 0⟩,
       ⟨0, 1, 0, 0⟩,
       ⟨0, 0, 1, 0⟩,
       ⟨0, 0, 0, 1⟩]

/-- matrix.rs lines 52-58, `Matrix::dilation_xyz`. -/
def dilation_xyz (sx sy sz : ℚ) : Matrix :=
  new4x4
    sx 0 0 0
    0 sy 0 0
    0 0 sz 0
    0 0 0 1

/-- matrix.rs `Matrix::width`. -/
def width (m : Matrix) : Nat := m.v.length

/-- matrix.rs lines 69-75, `Matrix::col`.  The source first checks
`colnum > width` (note: not `>=`) and panics; when the check passes,
`self.v[colnum]` is a checked Vec access that itself panics at
`colnum == width`.  Both panics are `none` here. -/
def col (m : Matrix) (colnum : Nat) : Option Col :=
  if colnum > m.width then none else m.v[colnum]?

/-- matrix.rs lines 104-113, `Matrix::row`: panics when `rownum > 3`,
otherwise collects entry `rownum` of each column left to right. -/
def row (m : Matrix) (rownum : Nat) : Option (List ℚ) :=
  if rownum > 3 then none
  else m.v.mapM (fun c => c.get rownum)

/-- matrix.rs lines 115-117, `Matrix::get`: `self.v[col][row]`, a
checked Vec access followed by a checked array access. -/
def get (m : Matrix) (rownum colnum : Nat) : Option ℚ :=
  match m.v[colnum]? with
  | none => none
  | some c => c.get rownum

/-- matrix.rs lines 120-122, `Matrix::set`: `self.v[col][row] = val`.
The Vec index `col` is checked first, then the array index `row`; the
write happens only after both checks pass, so `none` means the panic
fired before any mutation. -/
def set (m : Matrix) (rownum colnum : Nat) (val : ℚ) : Option Matrix :=
  match m.v[colnum]? with
  | none => none
  | some c =>
    match c.setIdx rownum val with
    | none => none
    | some c2 => some ⟨m.v.set colnum c2⟩

/-- `Matrix::set` with the panic made observable as a final state: on
success the pair is the updated matrix and `true`; at a panic the pair
is the state at the moment the panic fired (the untouched input, since
both index checks precede the single write) and `false`. -/
def setRun (m : Matrix) (rownum colnum : Nat) (val : ℚ) : Matrix × Bool :=
  match m.set rownum colnum val with
  | none => (m, false)
  | some m2 => (m2, true)

/-- matrix.rs `Matrix::push_col`: `self.v.push(col)`; no bounds check,
cannot fail. -/
def push_col (m : Matrix) (c : Col) : Matrix := ⟨m.v ++ [c]⟩

/-- matrix.rs lines 99-102, `Matrix::push_edge`: two `push_col` calls;
no bounds check on either, cannot fail. -/
def push_edge (m : Matrix) (colA colB : Col) : Matrix :=
  (m.push_col colA).push_col colB

/-- matrix.rs lines 130-143, `Add for Matrix`: clone the columns of the
left operand, then add the right operand componentwise into the zipped
prefix (`iter_mut().zip` stops at the shorter operand); the cloned
columns past the zip are returned unchanged. -/
def add (m rhs : Matrix) : Matrix :=
  ⟨List.zipWith Col.add m.v rhs.v ++ m.v.drop rhs.v.length⟩

end Matrix

/-- matrix.rs lines 196-202, `dot_product_refs`: sum of pairwise
products over the zip of the two sequences (stops at the shorter). -/
def dot_product_refs (v u : List ℚ) : ℚ :=
  (List.zipWith (fun a b => a * b) v u).foldl (fun s ab => s + ab) 0

/-- matrix.rs lines 212-220, `scale_matrix`: starts from
`Matrix::new(vec![])` (an EMPTY result matrix) and then attempts
`result.set(row, col, scalar * mat.get(row, col))` for every row 0..3
and column 0..mat.width of the input; each iteration is `none` where
the Rust call panics. -/
def scale_matrix (scalar : ℚ) (mat : Matrix) : Option Matrix :=
  (List.range 4).foldlM (fun result rownum =>
    (List.range mat.width).foldlM (fun result2 colnum =>
      match mat.get rownum colnum with
      | none => none
      | some x => result2.set rownum colnum (scalar * x)) result)
    (Matrix.new [])

/-- matrix.rs lines 222-227, `Mul<f64> for Matrix` (matrix times
scalar): delegates to `scale_matrix`. -/
def Matrix.mulScalar (m : Matrix) (s : ℚ) : Option Matrix := scale_matrix s m

/-- matrix.rs lines 229-234, `Mul<Matrix> for f64` (scalar times
matrix): delegates to `scale_matrix`. -/
def mulScalarMatrix (s : ℚ) (m : Matrix) : Option Matrix := scale_matrix s m

/-- matrix.rs lines 46-48, `Matrix::dilation`: `s * identity`, i.e.
`scale_matrix(s, identity)` through the scalar-on-the-left operator. -/
def Matrix.dilation (s : ℚ) : Option Matrix := mulScalarMatrix s Matrix.identity

/-- matrix.rs lines 182-194, `Mul<Matrix> for Matrix`: the result
accumulator starts as `Matrix::new(vec![[0.0; 4]; 4])` (four zero
columns); for i in 0..4 and j in 0..rhs.width it sets cell (i, j) to
the dot product of row i of the left operand with column j of the
right operand.  `row`, `col` and `set` panic exactly as in the source
(`none` here). -/
def Matrix.mul (lhs rhs : Matrix) : Option Matrix :=
  (List.range 4).foldlM (fun m i =>
    (List.range rhs.width).foldlM (fun m2 j =>
      match lhs.row i, rhs.col j with
      | some r, some c => m2.set i j (dot_product_refs r c.toList)
      | _, _ => none) m)
    (Matrix.new [⟨0, 0, 0, 0⟩, ⟨0, 0, 0, 0⟩, ⟨0, 0, 0, 0⟩, ⟨0, 0, 0, 0⟩])

end CStack

namespace CStack

/-! Helper lemmas shared by the claim theorems. -/

/-- Cell access into the result list built by `Matrix.add`, characterised
by the cells of the two operands. -/
theorem zipWith_add_append_drop (a b : List Col) (i : Nat) :
    (List.zipWith Col.add a b ++ a.drop b.length)[i]? =
      match a[i]?, b[i]? with
      | some x, some y => some (Col.add x y)
      | some x, none => some x
      | none, _ => none := by
  induction a generalizing b i with
  | nil => cases b <;> simp
  | cons x a2 ih =>
    cases b with
    | nil => cases h : (x :: a2)[i]? <;> simp [h]
    | cons y b2 =>
      cases i with
      | zero => simp
      | succ i2 => simpa using ih b2 i2

/-- The result list built by `Matrix.add` ignores the columns of the
right operand past the length of the left operand. -/
theorem zipWith_add_drop_take (a b : List Col) :
    List.zipWith Col.add a b ++ a.drop b.length =
      List.zipWith Col.add a (b.take a.length)
        ++ a.drop (b.take a.length).length := by
  induction a generalizing b with
  | nil => simp
  | cons x a2 ih =>
    cases b with
    | nil => simp
    | cons y b2 => simpa using ih b2

/-- Writing at a row index past 3 panics before touching the column. -/
theorem Col.setIdx_eq_none (c : Col) (i : Nat) (val : ℚ) (h : 4 ≤ i) :
    c.setIdx i val = none := by
  unfold Col.setIdx
  split <;> first | rfl | omega

/-- Reading `scale_matrix` panics on its very first write whenever the
input has at least one column: the result accumulator starts empty, so
`result.set(0, 0, _)` is out of bounds. -/
theorem scale_matrix_eq_none (s : ℚ) (m : Matrix) (h : 0 < m.width) :
    scale_matrix s m = none := by
  obtain ⟨v⟩ := m
  cases v with
  | nil => simp [Matrix.width] at h
  | cons c t =>
    show scale_matrix s ⟨c :: t⟩ = none
    simp [scale_matrix, Matrix.width, List.range_succ_eq_map, Matrix.get,
      Matrix.set, Col.get, Matrix.new, List.foldlM,
      show List.range 4 = [0, 1, 2, 3] from rfl]

/-! The claim theorems. -/

/-- Claim C1: the spec says scalar multiplication (in both operand
orders) returns a same-width matrix with every cell scaled, and that
`1.0 * M = M`.  The code disagrees: `scale_matrix` starts from an empty
result matrix and its first `set` is out of bounds, so both operand
orders panic (`none`) for every matrix with at least one column — in
particular `1.0 * origin()` panics instead of returning `origin()`. -/
theorem c1_scalar_mul_panics (s : ℚ) (m : Matrix) (h : 0 < m.width) :
    m.mulScalar s = none ∧ mulScalarMatrix s m = none :=
  ⟨scale_matrix_eq_none s m h, scale_matrix_eq_none s m h⟩

theorem c1_scalar_mul_panics_witness :
    Matrix.origin.mulScalar 1 = none ∧ mulScalarMatrix 1 Matrix.origin = none :=
  c1_scalar_mul_panics 1 Matrix.origin (by decide)

/-- Claim C2: the spec says `new4x4` assigns parameter k (row-major) to
row k/4, column k%4, with no value reused and none dropped.  Evaluating
the code on the 16 distinct inputs 1..16 shows parameter m (the 13th
value, destined for row 3 column 0) is also stored at row 3 column 1,
while parameter n (the 14th value) appears nowhere. -/
theorem c2_new4x4_reuses_m_drops_n :
    Matrix.new4x4 1 2 3 4 5 6 7 8 9 10 11 12 13 14 15 16
      = Matrix.new [⟨1, 5, 9, 13⟩, ⟨2, 6, 10, 13⟩, ⟨3, 7, 11, 15⟩, ⟨4, 8, 12, 16⟩]
    ∧ (Matrix.new4x4 1 2 3 4 5 6 7 8 9 10 11 12 13 14 15 16).get 3 1 = some 13 :=
  ⟨rfl, rfl⟩

/-- Claim C3: the spec says the product has width `B.width()` and that
`dilation_xyz(2,3,4) * origin()` equals `origin()`.  The code disagrees:
the result accumulator is always a 4x4 matrix, so the product with the
4x1 `origin()` is a 4x4 matrix (correct first column, three zero
columns), not `origin()`. -/
theorem c3_mul_result_width_always_4 :
    Matrix.mul (Matrix.dilation_xyz 2 3 4) Matrix.origin
      = some (Matrix.new [⟨0, 0, 0, 1⟩, ⟨0, 0, 0, 0⟩, ⟨0, 0, 0, 0⟩, ⟨0, 0, 0, 0⟩])
    ∧ Matrix.mul (Matrix.dilation_xyz 2 3 4) Matrix.origin ≠ some Matrix.origin := by
  have he : Matrix.mul (Matrix.dilation_xyz 2 3 4) Matrix.origin
      = some (Matrix.new [⟨0, 0, 0, 1⟩, ⟨0, 0, 0, 0⟩, ⟨0, 0, 0, 0⟩, ⟨0, 0, 0, 0⟩]) := by
    norm_num [Matrix.mul, Matrix.set, Matrix.row, Matrix.col, Matrix.get, Matrix.width,
      dot_product_refs, Col.toList, Col.setIdx, Col.get, Matrix.new, Matrix.origin,
      Matrix.dilation_xyz, Matrix.new4x4,
      show List.range 4 = [0, 1, 2, 3] from rfl, show List.range 1 = [0] from rfl,
      List.foldlM, List.mapM, List.mapM.loop]
  refine ⟨he, ?_⟩
  rw [he]
  simp [Matrix.new, Matrix.origin]

/-- Claim C4: the spec says `identity() * M` equals M for every matrix M.
The code disagrees for any M whose width is not 4: the product is always
a 4x4 matrix, so `identity() * origin()` is a 4x4 matrix (the origin
column padded with three zero columns), not the 4x1 `origin()`. -/
theorem c4_identity_mul_pads_width :
    Matrix.mul Matrix.identity Matrix.origin
      = some (Matrix.new [⟨0, 0, 0, 1⟩, ⟨0, 0, 0, 0⟩, ⟨0, 0, 0, 0⟩, ⟨0, 0, 0, 0⟩])
    ∧ Matrix.mul Matrix.identity Matrix.origin ≠ some Matrix.origin := by
  have he : Matrix.mul Matrix.identity Matrix.origin
      = some (Matrix.new [⟨0, 0, 0, 1⟩, ⟨0, 0, 0, 0⟩, ⟨0, 0, 0, 0⟩, ⟨0, 0, 0, 0⟩]) := by
    norm_num [Matrix.mul, Matrix.set, Matrix.row, Matrix.col, Matrix.get, Matrix.width,
      dot_product_refs, Col.toList, Col.setIdx, Col.get, Matrix.new, Matrix.origin,
      Matrix.identity,
      show List.range 4 = [0, 1, 2, 3] from rfl, show List.range 1 = [0] from rfl,
      List.foldlM, List.mapM, List.mapM.loop]
  refine ⟨he, ?_⟩
  rw [he]
  simp [Matrix.new, Matrix.origin]

/-- Claim C5: elementwise addition sums column i of the two operands for
i below the shorter width, carries the extra columns of the left operand
through unchanged, has the width of the left operand, and on the
concrete 4x2 plus 4x1 example from the spec yields
[(2,3,4,2), (4,5,6,1)]. -/
theorem c5_add_asymmetric_width (A B : Matrix) :
    (A.add B).width = A.width
    ∧ (∀ (i : Nat) (a b : Col), A.v[i]? = some a → B.v[i]? = some b →
        (A.add B).v[i]? = some (Col.add a b))
    ∧ (∀ i : Nat, B.width ≤ i → (A.add B).v[i]? = A.v[i]?)
    ∧ (Matrix.new [⟨1, 2, 3, 1⟩, ⟨4, 5, 6, 1⟩]).add (Matrix.new [⟨1, 1, 1, 1⟩])
        = Matrix.new [⟨2, 3, 4, 2⟩, ⟨4, 5, 6, 1⟩] := by
  refine ⟨?_, ?_, ?_, ?_⟩
  · simp only [Matrix.add, Matrix.width, List.length_append, List.length_zipWith,
      List.length_drop]
    omega
  · intro i a b ha hb
    simp only [Matrix.add]
    rw [zipWith_add_append_drop, ha, hb]
  · intro i hw
    have hb : B.v[i]? = none := List.getElem?_eq_none hw
    simp only [Matrix.add]
    rw [zipWith_add_append_drop, hb]
    cases A.v[i]? <;> rfl
  · norm_num [Matrix.add, Col.add, Matrix.new]

theorem c5_add_asymmetric_width_witness :
    ((Matrix.new [⟨1, 2, 3, 1⟩, ⟨4, 5, 6, 1⟩]).add (Matrix.new [⟨1, 1, 1, 1⟩])).v[1]?
      = (Matrix.new [⟨1, 2, 3, 1⟩, ⟨4, 5, 6, 1⟩]).v[1]? :=
  (c5_add_asymmetric_width (Matrix.new [⟨1, 2, 3, 1⟩, ⟨4, 5, 6, 1⟩])
    (Matrix.new [⟨1, 1, 1, 1⟩])).2.2.1 1 (by decide)

/-- Claim C6: the spec says `dilation(s)` returns s times the identity.
The code computes it as `s * identity()` through `scale_matrix`, whose
first write into its empty result accumulator is out of bounds, so
`dilation(s)` panics (`none`) for every s instead of returning a
matrix. -/
theorem c6_dilation_panics (s : ℚ) : Matrix.dilation s = none :=
  scale_matrix_eq_none s Matrix.identity (by decide)

/-- Claim C7: `dilation_xyz(sx, sy, sz)` is the diagonal matrix
diag(sx, sy, sz, 1): cell (i, i) carries the corresponding scale (1 at
(3,3)) and every off-diagonal cell is 0. -/
theorem c7_dilation_xyz_diag (sx sy sz : ℚ) (i j : Nat) (hi : i < 4) (hj : j < 4) :
    (Matrix.dilation_xyz sx sy sz).get i j
      = some (if i = j then (match i with | 0 => sx | 1 => sy | 2 => sz | _ => 1)
              else 0) := by
  interval_cases i <;> interval_cases j <;> rfl

theorem c7_dilation_xyz_diag_witness :
    (Matrix.dilation_xyz 2 3 4).get 2 2
      = some (if 2 = 2 then (match 2 with | 0 => (2 : ℚ) | 1 => 3 | 2 => 4 | _ => 1)
              else 0) :=
  c7_dilation_xyz_diag 2 3 4 2 2 (by decide) (by decide)

/-- Claim C8: `col(i)` fails with a bounds error for every i at or past
the width (the explicit check catches i > width and the underlying Vec
access fails at i = width), and `row(i)` fails for every i > 3; neither
ever returns a value there. -/
theorem c8_col_row_bounds (m : Matrix) (i : Nat) :
    (m.width ≤ i → m.col i = none) ∧ (4 ≤ i → m.row i = none) := by
  constructor
  · intro h
    by_cases hc : i > m.width
    · simp [Matrix.col, hc]
    · have hnone : m.v[i]? = none := List.getElem?_eq_none h
      simp [Matrix.col, hc, hnone]
  · intro h
    have h3 : i > 3 := by omega
    simp [Matrix.row, h3]

theorem c8_col_row_bounds_witness :
    Matrix.origin.col 1 = none ∧ Matrix.origin.row 4 = none :=
  ⟨(c8_col_row_bounds Matrix.origin 1).1 (by decide),
   (c8_col_row_bounds Matrix.origin 4).2 (by decide)⟩

/-- Claim C9: a `set` call whose indices violate the bounds (row past 3
or column past the width) aborts without any partial mutation: the run
fails and the state at the failure is exactly the input matrix; and
whenever a `set` run reports failure the state is unchanged. -/
theorem c9_set_no_partial_mutation (m : Matrix) (rownum colnum : Nat) (val : ℚ) :
    ((m.setRun rownum colnum val).2 = false → (m.setRun rownum colnum val).1 = m)
    ∧ (4 ≤ rownum ∨ m.width ≤ colnum →
        m.setRun rownum colnum val = (m, false)) := by
  constructor
  · intro h
    simp only [Matrix.setRun] at h ⊢
    cases hs : m.set rownum colnum val with
    | none => rfl
    | some m2 => rw [hs] at h; simp at h
  · intro hbad
    have hnone : m.set rownum colnum val = none := by
      rcases hbad with hr | hc2
      · unfold Matrix.set
        cases hcol : m.v[colnum]? with
        | none => rfl
        | some c => simp [Col.setIdx_eq_none c rownum val hr]
      · have hv : m.v[colnum]? = none := List.getElem?_eq_none hc2
        simp [Matrix.set, hv]
    simp [Matrix.setRun, hnone]

theorem c9_set_no_partial_mutation_witness :
    (Matrix.origin.setRun 4 0 7).1 = Matrix.origin
    ∧ Matrix.origin.setRun 0 1 7 = (Matrix.origin, false) :=
  ⟨(c9_set_no_partial_mutation Matrix.origin 4 0 7).1 (by rfl),
   (c9_set_no_partial_mutation Matrix.origin 0 1 7).2 (Or.inr (by decide))⟩

/-- Claim C10: addition is defined for every pair of widths; when the
right operand is wider, its columns at indices at or past the width of
the left operand are silently discarded (the sum equals the sum against
the right operand truncated to the left width), and the result width is
the left width. -/
theorem c10_add_truncates_wider_rhs (A B : Matrix) :
    (A.add B).width = A.width
    ∧ A.add B = A.add (Matrix.new (B.v.take A.width)) := by
  constructor
  · simp only [Matrix.add, Matrix.width, List.length_append, List.length_zipWith,
      List.length_drop]
    omega
  · simp only [Matrix.add, Matrix.new, Matrix.width]
    exact congrArg Matrix.mk (zipWith_add_drop_take A.v B.v)

end CStack
